import Mathlib

/-!
# Verification of `optimize_schedules_with_sanity.py` / `main.py`

A shallow embedding of the weekly staff-scheduling optimizer:
the model builder (`solve_cpsat`, constraint and objective construction),
the solution extractor (unscaled objective recomputation), the sanity
validator (`write_solution`'s Sanity sheet), the precheck in `main`, and
the workbook reader (`read_cost_pref_hours_caps`).

Numeric spreadsheet cells are embedded as rationals (`ℚ`); a missing or
blank cell is `Option.none`.  Python's `round` (round-half-to-even on
floats) is embedded as `pyRound` on `ℚ`; Python's `int` truncation as
`pyInt`.  The external CP-SAT solver is an oracle: an arbitrary outcome
(status, assignment, reported objective) fed to the embedded pipeline.
-/

set_option maxHeartbeats 2000000
set_option maxRecDepth 100000

namespace Sched

/-- Number of employees and of schedules (module constant `N = 20`). -/
def N : ℕ := 20

/-- Number of days in the week (`DAYS = ["Mon",...,"Sun"]`). -/
def numDays : ℕ := 7

instance : NeZero N := ⟨by decide⟩

/-- Shared integer scale constant (`SCALE = 1000`). -/
def SCALE : ℚ := 1000

/-- Per-day cost or preference matrices: `m d e s` is the entry for
day `d`, employee (row) `e`, schedule (column) `s`. -/
abbrev DMatrix := Fin 7 → Fin N → Fin N → ℚ

/-- Per-day hours vectors: `h d s` is the duration of schedule `s` on day `d`. -/
abbrev HoursV := Fin 7 → Fin N → ℚ

/-- Boolean assignment: `x d e s = true` iff employee `e` works schedule `s`
on day `d` (the CP-SAT variables `x[(e,s,d)]`). -/
abbrev Assignment := Fin 7 → Fin N → Fin N → Bool

/-- Python's `round` on a rational: round to the nearest integer,
ties to the even integer (banker's rounding, as for CPython floats). -/
def pyRound (q : ℚ) : ℤ :=
  if q - (⌊q⌋ : ℚ) < 1/2 then ⌊q⌋
  else if 1/2 < q - (⌊q⌋ : ℚ) then ⌊q⌋ + 1
  else if 2 ∣ ⌊q⌋ then ⌊q⌋ else ⌊q⌋ + 1

/-- Python's `int()` truncation toward zero on a rational. -/
def pyInt (q : ℚ) : ℤ :=
  if q < 0 then -⌊-q⌋ else ⌊q⌋

/-- `0/1` value of an assignment variable. -/
def b2n (b : Bool) : ℕ := if b then 1 else 0

lemma b2n_le_one (b : Bool) : b2n b ≤ 1 := by cases b <;> simp [b2n]

lemma b2n_false : b2n false = 0 := rfl

/-- `pyRound q` is either the floor or the floor plus one, and each branch
carries the corresponding bound on the fractional part. -/
lemma pyRound_spec (q : ℚ) :
    (pyRound q = ⌊q⌋ ∧ q - (⌊q⌋ : ℚ) ≤ 1/2) ∨
    (pyRound q = ⌊q⌋ + 1 ∧ 1/2 ≤ q - (⌊q⌋ : ℚ)) := by
  unfold pyRound
  split_ifs with h1 h2 h3
  · exact Or.inl ⟨rfl, le_of_lt h1⟩
  · exact Or.inr ⟨rfl, le_of_lt h2⟩
  · exact Or.inl ⟨rfl, le_of_not_lt h2⟩
  · exact Or.inr ⟨rfl, le_of_not_lt h1⟩

/-- `pyRound` never rounds down by more than `1/2`. -/
lemma le_pyRound (q : ℚ) : q - 1/2 ≤ (pyRound q : ℚ) := by
  have hf : (⌊q⌋ : ℚ) ≤ q := Int.floor_le q
  have hf' : q < (⌊q⌋ : ℚ) + 1 := Int.lt_floor_add_one q
  rcases pyRound_spec q with ⟨h, hb⟩ | ⟨h, hb⟩ <;> rw [h] <;> push_cast <;> linarith

/-- `pyRound` never rounds up by more than `1/2`. -/
lemma pyRound_le (q : ℚ) : (pyRound q : ℚ) ≤ q + 1/2 := by
  have hf : (⌊q⌋ : ℚ) ≤ q := Int.floor_le q
  have hf' : q < (⌊q⌋ : ℚ) + 1 := Int.lt_floor_add_one q
  rcases pyRound_spec q with ⟨h, hb⟩ | ⟨h, hb⟩ <;> rw [h] <;> push_cast <;> linarith

/-- `pyRound` is monotone. -/
lemma pyRound_mono {q r : ℚ} (h : q ≤ r) : pyRound q ≤ pyRound r := by
  have hfl : ⌊q⌋ ≤ ⌊r⌋ := Int.floor_le_floor h
  rcases pyRound_spec q with ⟨hq, hq2⟩ | ⟨hq, hq2⟩ <;>
    rcases pyRound_spec r with ⟨hr, hr2⟩ | ⟨hr, hr2⟩
  · omega
  · omega
  · by_cases heq : ⌊q⌋ = ⌊r⌋
    · have hc : ((⌊q⌋ : ℤ) : ℚ) = ((⌊r⌋ : ℤ) : ℚ) := by exact_mod_cast heq
      have heqr : q = r := le_antisymm h (by linarith)
      subst heqr
      omega
    · omega
  · omega

/-! ## Model builder (`solve_cpsat`, lines 192–238) -/

/-- The availability convention: schedule `s` is unavailable on day `d`
iff its cost column is entirely zero (`np.all(C[:, s] == 0.0)`). -/
def allZeroCol (costs : DMatrix) (d : Fin 7) (s : Fin N) : Prop :=
  ∀ e, costs d e s = 0

instance (costs : DMatrix) (d : Fin 7) (s : Fin N) :
    Decidable (allZeroCol costs d s) := by
  unfold allZeroCol; infer_instance

/-- Scaled objective coefficient `int(round((C[e,s] − λ·P[e,s])·SCALE))`
(lines 206–207). -/
def scaledCoef (costs prefs : DMatrix) (lam : ℚ) (d : Fin 7) (e s : Fin N) : ℤ :=
  pyRound ((costs d e s - lam * prefs d e s) * SCALE)

/-- The built model's scaled integer objective at an assignment (line 208). -/
def scaledObjective (costs prefs : DMatrix) (lam : ℚ) (x : Assignment) : ℤ :=
  ∑ d : Fin 7, ∑ e : Fin N, ∑ s : Fin N,
    scaledCoef costs prefs lam d e s * (b2n (x d e s) : ℤ)

/-- Per-employee-per-day constraint `Σ_s x[e,s,d] ≤ 1` (line 214). -/
def perDayAtMostOne (x : Assignment) : Prop :=
  ∀ d e, (∑ s : Fin N, b2n (x d e s)) ≤ 1

instance (x : Assignment) : Decidable (perDayAtMostOne x) := by
  unfold perDayAtMostOne; infer_instance

/-- Availability constraints (lines 217–224): an all-zero cost column
forces `x[e,s,d] = 0` for every employee; otherwise `Σ_e x[e,s,d] = 1`. -/
def availabilityConstraint (costs : DMatrix) (x : Assignment) : Prop :=
  ∀ d s, (allZeroCol costs d s → ∀ e, x d e s = false) ∧
         (¬ allZeroCol costs d s → (∑ e : Fin N, b2n (x d e s)) = 1)

instance (costs : DMatrix) (x : Assignment) :
    Decidable (availabilityConstraint costs x) := by
  unfold availabilityConstraint; infer_instance

/-- Weekly shift caps `Σ_{d,s} x[e,s,d] ≤ shift_caps[e]` (line 228). -/
def shiftCapConstraint (shiftCaps : Fin N → ℤ) (x : Assignment) : Prop :=
  ∀ e, (∑ d : Fin 7, ∑ s : Fin N, (b2n (x d e s) : ℤ)) ≤ shiftCaps e

instance (shiftCaps : Fin N → ℤ) (x : Assignment) :
    Decidable (shiftCapConstraint shiftCaps x) := by
  unfold shiftCapConstraint; infer_instance

/-- Weekly hour caps (lines 231–238), added only when the cap is positive:
`Σ_{d,s} round(hours[d][s]·SCALE)·x[e,s,d] ≤ round(cap·SCALE)`. -/
def hourCapConstraint (hours : HoursV) (hourCaps : Fin N → ℚ) (x : Assignment) : Prop :=
  ∀ e, 0 < hourCaps e →
    (∑ d : Fin 7, ∑ s : Fin N, pyRound (hours d s * SCALE) * (b2n (x d e s) : ℤ))
      ≤ pyRound (hourCaps e * SCALE)

instance (hours : HoursV) (hourCaps : Fin N → ℚ) (x : Assignment) :
    Decidable (hourCapConstraint hours hourCaps x) := by
  unfold hourCapConstraint; infer_instance

/-- The conjunction of all constraints of the built model. -/
def feasible (costs : DMatrix) (hours : HoursV) (shiftCaps : Fin N → ℤ)
    (hourCaps : Fin N → ℚ) (x : Assignment) : Prop :=
  perDayAtMostOne x ∧ availabilityConstraint costs x ∧
  shiftCapConstraint shiftCaps x ∧ hourCapConstraint hours hourCaps x

instance (costs : DMatrix) (hours : HoursV) (shiftCaps : Fin N → ℤ)
    (hourCaps : Fin N → ℚ) (x : Assignment) :
    Decidable (feasible costs hours shiftCaps hourCaps x) := by
  unfold feasible; infer_instance

/-! ## Solver statuses and solution extraction (lines 240–262) -/

/-- CP-SAT solve statuses. -/
inductive CpStatus
  | optimal | feasible | infeasible | modelInvalid | unknown
  deriving DecidableEq

/-- What the external solver hands back: a status, the variable values,
and `solver.ObjectiveValue()` — the objective it reports for them. -/
structure SolverOutcome where
  status : CpStatus
  assignment : Assignment
  reportedObjective : ℚ

/-- `status in (cp_model.OPTIMAL, cp_model.FEASIBLE)` (line 245). -/
def statusAcceptable : CpStatus → Bool
  | .optimal => true
  | .feasible => true
  | _ => false

/-- The unscaled objective recomputed by the extractor (lines 254–261):
`obj += C[e,s] − λ·P[e,s]` over the triples with `sol == 1`, straight
from the raw matrices. -/
def recomputedObjective (costs prefs : DMatrix) (lam : ℚ) (x : Assignment) : ℚ :=
  ∑ d : Fin 7, ∑ e : Fin N, ∑ s : Fin N,
    if x d e s then costs d e s - lam * prefs d e s else 0

/-- `solve_cpsat` from the solver call onward: raise when the status is
neither OPTIMAL nor FEASIBLE (lines 245–248), else extract the assignment
and recompute the unscaled objective (lines 250–262).  The model the
solver searched is `feasible`/`scaledObjective` above; the solver itself
is the oracle `out`.  Note the body never consults
`out.reportedObjective`. -/
def solveCpsat (costs prefs : DMatrix) (hours : HoursV) (lam : ℚ)
    (shiftCaps : Fin N → ℤ) (hourCaps : Fin N → ℚ) (out : SolverOutcome) :
    Except String (Assignment × ℚ) :=
  if statusAcceptable out.status then
    .ok (out.assignment, recomputedObjective costs prefs lam out.assignment)
  else
    .error "No feasible solution found. Check availability, Weekly caps, and Max Hours."

/-! ## Sanity validator (`write_solution`, lines 109–183) -/

/-- Actual weekly hours of employee `e` (lines 111–118). -/
def weeklyHours (hours : HoursV) (x : Assignment) (e : Fin N) : ℚ :=
  ∑ d : Fin 7, ∑ s : Fin N, if x d e s then hours d s else 0

/-- Availability flag recomputed from the raw cost column (line 161). -/
def availFlag (costs : DMatrix) (d : Fin 7) (s : Fin N) : ℕ :=
  if allZeroCol costs d s then 0 else 1

/-- Usage count of schedule `s` on day `d` (line 165). -/
def usage (x : Assignment) (d : Fin 7) (s : Fin N) : ℕ :=
  ∑ e : Fin N, b2n (x d e s)

/-- The validator's violation list (lines 152–170): the `(day, s)` pairs,
in sheet order, where an unavailable schedule has non-zero usage. -/
def violations (costs : DMatrix) (x : Assignment) : List (Fin 7 × Fin N) :=
  (List.finRange 7).flatMap fun d =>
    (List.finRange N).filterMap fun s =>
      if availFlag costs d s = 0 ∧ usage x d s ≠ 0 then some (d, s) else none

/-! ## `main` (lines 267–294) and `run_schedule_optimizer` (`main.py`) -/

/-- Number of available schedules on day `d` (line 283). -/
def availableCount (costs : DMatrix) (d : Fin 7) : ℕ :=
  ∑ s : Fin N, if allZeroCol costs d s then 0 else 1

/-- The precheck's issue list (lines 280–285): days whose available
count exceeds `N`. -/
def precheckIssues (costs : DMatrix) : List (Fin 7 × ℕ) :=
  (List.finRange 7).filterMap fun d =>
    if availableCount costs d > N then some (d, availableCount costs d) else none

/-- Observable shape of one run: the precheck diagnostics, whether the
solver was invoked, the solve outcome, and whether `write_solution` ran. -/
structure RunResult where
  issues : List (Fin 7 × ℕ)
  solverInvoked : Bool
  solveResult : Except String (Assignment × ℚ)
  wroteOutput : Bool

/-- One run of the pipeline (`main` lines 277–294; identically
`run_schedule_optimizer` in `main.py`): build the precheck issue list
(printed only), invoke the solver unconditionally, and call
`write_solution` exactly when `solve_cpsat` did not raise. -/
def mainRun (costs prefs : DMatrix) (hours : HoursV) (lam : ℚ)
    (shiftCaps : Fin N → ℤ) (hourCaps : Fin N → ℚ) (out : SolverOutcome) : RunResult :=
  let r := solveCpsat costs prefs hours lam shiftCaps hourCaps out
  { issues := precheckIssues costs
    solverInvoked := true
    solveResult := r
    wroteOutput := r.isOk }

/-! ## Workbook reader (`read_cost_pref_hours_caps`, lines 36–80) -/

/-- A workbook, seen as the numeric cells the reader touches: day-sheet
cells and Weekly-sheet cells addressed by (row, column); `none` is a
missing or blank cell. -/
structure Workbook where
  dayCell : Fin 7 → ℕ → ℕ → Option ℚ
  weeklyCell : ℕ → ℕ → Option ℚ

/-- Python's `v or d` on an optional numeric cell: `None` and `0` are
falsy and give the default. -/
def pyOr (v : Option ℚ) (dflt : ℚ) : ℚ :=
  match v with
  | none => dflt
  | some q => if q = 0 then dflt else q

/-- Cost matrices from `B3:U22` (lines 43–48: `float(v or 0.0)`). -/
def readCosts (wb : Workbook) : DMatrix := fun d i j =>
  pyOr (wb.dayCell d (3 + i.val) (2 + j.val)) 0

/-- Preference matrices from `W3:AP22` (lines 51–56). -/
def readPrefs (wb : Workbook) : DMatrix := fun d i j =>
  pyOr (wb.dayCell d (3 + i.val) (23 + j.val)) 0

/-- Hours vectors from `B24:U24` (lines 59–63). -/
def readHours (wb : Workbook) : HoursV := fun d s =>
  pyOr (wb.dayCell d 24 (2 + s.val)) 0

/-- λ from Weekly!E2 (line 66: `float(ws_w["E2"].value or 1.0)`). -/
def readLam (wb : Workbook) : ℚ :=
  pyOr (wb.weeklyCell 2 5) 1

/-- Weekly shift caps from `C6:C25` (lines 69–72:
`int(v) if v is not None else 7`). -/
def readShiftCaps (wb : Workbook) : Fin N → ℤ := fun e =>
  match wb.weeklyCell (6 + e.val) 3 with
  | none => 7
  | some q => pyInt q

/-- Weekly hour caps from `F6:F25` (lines 75–78: `float(v or 0.0)`). -/
def readHourCaps (wb : Workbook) : Fin N → ℚ := fun e =>
  pyOr (wb.weeklyCell (6 + e.val) 6) 0

/-! ## Optimality of the built model's scaled objective -/

/-- `v` is the minimal value of the built model's scaled objective over
the feasible region: some feasible assignment attains it and no feasible
assignment beats it.  This is the contract of an OPTIMAL solver result. -/
def OptimalValue (costs prefs : DMatrix) (hours : HoursV) (lam : ℚ)
    (shiftCaps : Fin N → ℤ) (hourCaps : Fin N → ℚ) (v : ℤ) : Prop :=
  (∃ x, feasible costs hours shiftCaps hourCaps x ∧
        scaledObjective costs prefs lam x = v) ∧
  (∀ x, feasible costs hours shiftCaps hourCaps x →
        v ≤ scaledObjective costs prefs lam x)

/-! ## Concrete instances used as witnesses and counterexamples -/

/-- All-zero cost (and preference) matrices: every schedule unavailable. -/
def costs0 : DMatrix := fun _ _ _ => 0

/-- All-zero hours. -/
def hours0 : HoursV := fun _ _ => 0

/-- Shift caps all 7 (the reader's default). -/
def caps7 : Fin N → ℤ := fun _ => 7

/-- Hour caps all 0, i.e. unlimited: no hour-cap constraint is added. -/
def hcaps0 : Fin N → ℚ := fun _ => 0

/-- Hour caps all 1. -/
def hcaps1 : Fin N → ℚ := fun _ => 1

/-- The empty assignment. -/
def xFalse : Assignment := fun _ _ _ => false

/-- Preferences that are zero except for employee 0 / schedule 0 on day 0:
non-negative and non-uniform. -/
def prefsW : DMatrix := fun d e s => if d = 0 ∧ e = 0 ∧ s = 0 then 1 else 0

/-- Costs making schedule 0 available every day (employee 0 has cost 1
for it) and every other schedule unavailable. -/
def costsC3 : DMatrix := fun _ e s => if e = 0 ∧ s = 0 then 1 else 0

/-- Every schedule lasts `0.0004` hours: `0.0004·1000 = 0.4` rounds to 0,
so the scaled hour-cap constraint cannot see these hours at all. -/
def hoursC3 : HoursV := fun _ _ => 1/2500

/-- Hour cap `0.0001` for employee 0 (`0.0001·1000 = 0.1` rounds to 0),
no cap for the others. -/
def hcapsC3 : Fin N → ℚ := fun e => if e = 0 then 1/10000 else 0

/-- Employee 0 takes schedule 0 every day. -/
def xC3 : Assignment := fun _ e s => decide (e = 0 ∧ s = 0)

/-- A solver outcome whose reported objective is wildly off: OPTIMAL
status, empty assignment, reported objective `10^9`. -/
def outBad : SolverOutcome :=
  { status := CpStatus.optimal, assignment := xFalse, reportedObjective := 1000000000 }

/-- A solver outcome with an unacceptable status (NO-SOLUTION). -/
def outInfeasible : SolverOutcome :=
  { status := CpStatus.infeasible, assignment := xFalse, reportedObjective := 0 }

/-- The workbook in which every cell is missing. -/
def wbEmpty : Workbook :=
  { dayCell := fun _ _ _ => none, weeklyCell := fun _ _ => none }

/-! ## Helper lemmas -/

lemma usage_eq_zero_of_forced {costs : DMatrix} {x : Assignment} (d : Fin 7) (s : Fin N)
    (hall : allZeroCol costs d s) (hav : availabilityConstraint costs x) :
    usage x d s = 0 :=
  Finset.sum_eq_zero fun e _ => by rw [(hav d s).1 hall e]; rfl

lemma availableCount_le (costs : DMatrix) (d : Fin 7) : availableCount costs d ≤ N := by
  unfold availableCount
  calc (∑ s : Fin N, if allZeroCol costs d s then 0 else 1)
      ≤ ∑ _s : Fin N, 1 := Finset.sum_le_sum (fun s _ => by split <;> omega)
    _ = N := by simp [N]

lemma precheckIssues_eq_nil (costs : DMatrix) : precheckIssues costs = [] := by
  unfold precheckIssues
  rw [List.filterMap_eq_nil_iff]
  intro d _
  rw [if_neg]
  exact not_lt_of_le (availableCount_le costs d)

lemma scaledObjective_eq_zero (costs prefs : DMatrix) (lam : ℚ) (x : Assignment)
    (h : ∀ d e s, x d e s = false) : scaledObjective costs prefs lam x = 0 :=
  Finset.sum_eq_zero fun d _ => Finset.sum_eq_zero fun e _ =>
    Finset.sum_eq_zero fun s _ => by rw [h d e s]; simp [b2n]

lemma recomputedObjective_eq_zero (costs prefs : DMatrix) (lam : ℚ) (x : Assignment)
    (h : ∀ d e s, x d e s = false) : recomputedObjective costs prefs lam x = 0 :=
  Finset.sum_eq_zero fun d _ => Finset.sum_eq_zero fun e _ =>
    Finset.sum_eq_zero fun s _ => by rw [h d e s]; simp

lemma feasible_costs0_forces {hours : HoursV} {shiftCaps : Fin N → ℤ}
    {hourCaps : Fin N → ℚ} {x : Assignment}
    (h : feasible costs0 hours shiftCaps hourCaps x) : ∀ d e s, x d e s = false :=
  fun d e s => (h.2.1 d s).1 (fun _ => rfl) e

/-! ## Claim theorems -/

/-- C10: the precheck's condition `available > N` is unsatisfiable — a day
has only `N` cost columns, so `availableCount` is at most `N` for every
cost input, and `main`'s issue-reporting branch can never produce an
issue: `precheckIssues` is empty on every input. -/
theorem precheck_condition_unsatisfiable :
    ∀ costs : DMatrix, (∀ d, availableCount costs d ≤ N) ∧ precheckIssues costs = [] :=
  fun costs => ⟨fun d => availableCount_le costs d, precheckIssues_eq_nil costs⟩

/-- C2: contrary to the spec, the run never fails before the solver. The
precheck issue list is always empty (its trigger is unsatisfiable), the
issues are only printed, and `main` invokes `solve_cpsat` unconditionally
on every input. -/
theorem run_never_fails_before_solver :
    ∀ (costs prefs : DMatrix) (hours : HoursV) (lam : ℚ) (shiftCaps : Fin N → ℤ)
      (hourCaps : Fin N → ℚ) (out : SolverOutcome),
      (mainRun costs prefs hours lam shiftCaps hourCaps out).solverInvoked = true ∧
      (mainRun costs prefs hours lam shiftCaps hourCaps out).issues = [] := by
  intro costs prefs hours lam shiftCaps hourCaps out
  refine ⟨rfl, ?_⟩
  simp only [mainRun]
  exact precheckIssues_eq_nil costs

/-- C7: the extractor's recomputed objective is exactly the sum, over the
triples `(d, e, s)` whose assignment bit is set, of
`cost[d][e][s] − λ·pref[d][e][s]`, taken from the raw matrices. -/
theorem recomputed_objective_raw_sum :
    ∀ (costs prefs : DMatrix) (lam : ℚ) (x : Assignment),
      recomputedObjective costs prefs lam x =
        ∑ t ∈ Finset.univ.filter (fun t : Fin 7 × Fin N × Fin N => x t.1 t.2.1 t.2.2 = true),
          (costs t.1 t.2.1 t.2.2 - lam * prefs t.1 t.2.1 t.2.2) := by
  intro costs prefs lam x
  rw [Finset.sum_filter, Fintype.sum_prod_type]
  unfold recomputedObjective
  refine Finset.sum_congr rfl fun d _ => ?_
  rw [Fintype.sum_prod_type]

/-- C4: any assignment satisfying the built model's constraints yields an
empty violation list from the sanity validator: no `(day, schedule)` pair
has positive usage while its recomputed availability flag is 0. -/
theorem model_feasible_no_violations :
    ∀ (costs : DMatrix) (hours : HoursV) (shiftCaps : Fin N → ℤ)
      (hourCaps : Fin N → ℚ) (x : Assignment),
      feasible costs hours shiftCaps hourCaps x →
      violations costs x = [] := by
  intro costs hours shiftCaps hourCaps x hf
  unfold violations
  rw [List.flatMap_eq_nil_iff]
  intro d _
  rw [List.filterMap_eq_nil_iff]
  intro s _
  rw [if_neg]
  intro ⟨hflag, husage⟩
  unfold availFlag at hflag
  by_cases hall : allZeroCol costs d s
  · exact husage (usage_eq_zero_of_forced d s hall hf.2.1)
  · rw [if_neg hall] at hflag
    exact one_ne_zero hflag

/-- C4 witness: the all-unavailable input with the empty assignment is
feasible and produces an empty violation list. -/
theorem model_feasible_no_violations_witness :
    feasible costs0 hours0 caps7 hcaps0 xFalse ∧ violations costs0 xFalse = [] :=
  ⟨by decide, model_feasible_no_violations costs0 hours0 caps7 hcaps0 xFalse (by decide)⟩

/-- C5: under the built model's constraints, a schedule whose cost column
is all zero has usage 0 (all its variables are forced to 0), and a
schedule with a non-zero cost column has usage exactly 1. -/
theorem availability_exactly_once :
    ∀ (costs : DMatrix) (hours : HoursV) (shiftCaps : Fin N → ℤ)
      (hourCaps : Fin N → ℚ) (x : Assignment),
      feasible costs hours shiftCaps hourCaps x →
      ∀ d s, (allZeroCol costs d s → usage x d s = 0) ∧
             (¬ allZeroCol costs d s → usage x d s = 1) := by
  intro costs hours shiftCaps hourCaps x hf d s
  exact ⟨fun hall => usage_eq_zero_of_forced d s hall hf.2.1,
         fun hnall => (hf.2.1 d s).2 hnall⟩

/-- C5 witness: with schedule 0 available each day and the others not,
the assignment sending employee 0 to schedule 0 daily is feasible; the
available schedule has usage 1 and an unavailable one has usage 0. -/
theorem availability_exactly_once_witness :
    feasible costsC3 hoursC3 caps7 hcaps0 xC3 ∧
    usage xC3 0 0 = 1 ∧ usage xC3 0 1 = 0 := by
  refine ⟨by decide, ?_, ?_⟩
  · exact (availability_exactly_once costsC3 hoursC3 caps7 hcaps0 xC3 (by decide) 0 0).2
      (by decide)
  · exact (availability_exactly_once costsC3 hoursC3 caps7 hcaps0 xC3 (by decide) 0 1).1
      (by decide)

/-- C6: when the solver status is neither OPTIMAL nor FEASIBLE,
`solve_cpsat` raises, the run's result is the error (the caller's
`except` path returns it), and `write_solution` is never invoked. -/
theorem no_solution_terminal_no_output :
    ∀ (costs prefs : DMatrix) (hours : HoursV) (lam : ℚ) (shiftCaps : Fin N → ℤ)
      (hourCaps : Fin N → ℚ) (out : SolverOutcome),
      statusAcceptable out.status = false →
      (mainRun costs prefs hours lam shiftCaps hourCaps out).solveResult =
        .error "No feasible solution found. Check availability, Weekly caps, and Max Hours." ∧
      (mainRun costs prefs hours lam shiftCaps hourCaps out).wroteOutput = false := by
  intro costs prefs hours lam shiftCaps hourCaps out h
  unfold mainRun solveCpsat
  rw [h]
  exact ⟨rfl, rfl⟩

/-- C6 witness: a NO-SOLUTION outcome produces the error result and no
output on a concrete input. -/
theorem no_solution_terminal_no_output_witness :
    statusAcceptable outInfeasible.status = false ∧
    (mainRun costs0 costs0 hours0 0 caps7 hcaps0 outInfeasible).solveResult =
      .error "No feasible solution found. Check availability, Weekly caps, and Max Hours." ∧
    (mainRun costs0 costs0 hours0 0 caps7 hcaps0 outInfeasible).wroteOutput = false :=
  ⟨rfl, no_solution_terminal_no_output costs0 costs0 hours0 0 caps7 hcaps0 outInfeasible rfl⟩

/-- C1 (amended): whenever the solver status is acceptable, extraction
succeeds and returns the recomputed unscaled objective, whatever
objective value the solver reported: `solve_cpsat` performs no comparison
between the two, so a mismatch is never surfaced as a failure. -/
theorem extraction_ignores_reported_objective :
    ∀ (costs prefs : DMatrix) (hours : HoursV) (lam : ℚ) (shiftCaps : Fin N → ℤ)
      (hourCaps : Fin N → ℚ) (out : SolverOutcome),
      statusAcceptable out.status = true →
      solveCpsat costs prefs hours lam shiftCaps hourCaps out =
        .ok (out.assignment, recomputedObjective costs prefs lam out.assignment) := by
  intro costs prefs hours lam shiftCaps hourCaps out h
  unfold solveCpsat
  rw [h, if_pos rfl]

/-- C1 witness: applied to an outcome whose reported objective is `10^9`
while the recomputed objective is 0 — extraction still succeeds. -/
theorem extraction_ignores_reported_objective_witness :
    statusAcceptable outBad.status = true ∧
    solveCpsat costs0 costs0 hours0 0 caps7 hcaps0 outBad =
      .ok (outBad.assignment, recomputedObjective costs0 costs0 0 outBad.assignment) :=
  ⟨rfl, extraction_ignores_reported_objective costs0 costs0 hours0 0 caps7 hcaps0 outBad rfl⟩

/-- C1 counterexample: a concrete run in which the solver-reported
objective differs from the recomputed one by `10^6` — beyond even the
loosest scaling tolerance `2800·(1/2)/SCALE = 1.4` — yet `solve_cpsat`
returns success; the mismatch is not surfaced as a terminal failure. -/
theorem objective_mismatch_unsurfaced_cex :
    solveCpsat costs0 costs0 hours0 0 caps7 hcaps0 outBad =
      .ok (xFalse, recomputedObjective costs0 costs0 0 xFalse) ∧
    recomputedObjective costs0 costs0 0 xFalse = 0 ∧
    |recomputedObjective costs0 costs0 0 xFalse - outBad.reportedObjective / SCALE| >
      2800 * (1/2) / SCALE := by
  have h0 : recomputedObjective costs0 costs0 0 xFalse = 0 :=
    recomputedObjective_eq_zero costs0 costs0 0 xFalse (fun _ _ _ => rfl)
  refine ⟨rfl, h0, ?_⟩
  rw [h0]
  show |(0 : ℚ) - 1000000000 / SCALE| > 2800 * (1/2) / SCALE
  rw [show SCALE = 1000 from rfl]
  rw [abs_of_nonpos (by norm_num)]
  norm_num

/-- C9 (amended): the reader maps a missing or blank cell to 0.0 for
costs, preferences, hours and hour caps, while a missing λ cell defaults
to 1.0 and a missing shift-cap cell to 7; no missing cell is ever
rejected (the reader is total on workbooks). -/
theorem reader_missing_cell_defaults :
    ∀ wb : Workbook,
      (∀ (d : Fin 7) (i j : Fin N), wb.dayCell d (3 + i.val) (2 + j.val) = none →
        readCosts wb d i j = 0) ∧
      (∀ (d : Fin 7) (i j : Fin N), wb.dayCell d (3 + i.val) (23 + j.val) = none →
        readPrefs wb d i j = 0) ∧
      (∀ (d : Fin 7) (s : Fin N), wb.dayCell d 24 (2 + s.val) = none →
        readHours wb d s = 0) ∧
      (∀ e : Fin N, wb.weeklyCell (6 + e.val) 6 = none → readHourCaps wb e = 0) ∧
      (wb.weeklyCell 2 5 = none → readLam wb = 1) ∧
      (∀ e : Fin N, wb.weeklyCell (6 + e.val) 3 = none → readShiftCaps wb e = 7) := by
  intro wb
  refine ⟨fun d i j h => ?_, fun d i j h => ?_, fun d s h => ?_,
          fun e h => ?_, fun h => ?_, fun e h => ?_⟩
  · unfold readCosts; rw [h]; rfl
  · unfold readPrefs; rw [h]; rfl
  · unfold readHours; rw [h]; rfl
  · unfold readHourCaps; rw [h]; rfl
  · unfold readLam; rw [h]; rfl
  · unfold readShiftCaps; rw [h]

/-- C9 witness: in the all-missing workbook a cost cell reads 0, λ reads
1 and a shift cap reads 7. -/
theorem reader_missing_cell_defaults_witness :
    wbEmpty.dayCell 0 3 2 = none ∧ readCosts wbEmpty 0 0 0 = 0 ∧
    wbEmpty.weeklyCell 2 5 = none ∧ readLam wbEmpty = 1 ∧
    wbEmpty.weeklyCell 6 3 = none ∧ readShiftCaps wbEmpty 0 = 7 :=
  ⟨rfl, (reader_missing_cell_defaults wbEmpty).1 0 0 0 rfl, rfl,
   (reader_missing_cell_defaults wbEmpty).2.2.2.2.1 rfl, rfl,
   (reader_missing_cell_defaults wbEmpty).2.2.2.2.2 0 rfl⟩

/-- C9 counterexample: in the all-missing workbook, λ reads as 1.0 and
employee 0's shift cap as 7 — neither is 0.0, so missing cells are not
uniformly mapped to 0.0. -/
theorem reader_default_nonzero_cex :
    readLam wbEmpty = 1 ∧ readLam wbEmpty ≠ 0 ∧
    readShiftCaps wbEmpty 0 = 7 ∧ readShiftCaps wbEmpty 0 ≠ 0 :=
  ⟨rfl, by decide, rfl, by decide⟩

/-- C3 (amended): under the built model's per-day at-most-one constraint
and scaled hour-cap constraint, an employee with a positive hour cap is
assigned at most `hourCap[e] + 4/SCALE` exact weekly hours: at most 7
assigned terms each lose at most `(1/2)/SCALE` to rounding, plus
`(1/2)/SCALE` for the rounded cap, so `ε ≤ (7·(1/2) + 1/2)/SCALE`.
The spec's bound `ε ≤ 7·maxHours/SCALE` fails when hours are small
(see the counterexample). -/
theorem weekly_hours_cap_bound :
    ∀ (hours : HoursV) (hourCaps : Fin N → ℚ) (x : Assignment) (e : Fin N),
      perDayAtMostOne x → hourCapConstraint hours hourCaps x → 0 < hourCaps e →
      weeklyHours hours x e ≤ hourCaps e + 4 / SCALE := by
  intro hours hourCaps x e hday hcap hpos
  have hub : ((∑ d : Fin 7, ∑ s : Fin N,
      pyRound (hours d s * SCALE) * (b2n (x d e s) : ℤ) : ℤ) : ℚ)
      ≤ hourCaps e * SCALE + 1/2 := by
    refine le_trans ?_ (pyRound_le (hourCaps e * SCALE))
    exact_mod_cast hcap e hpos
  have hcntN : (∑ d : Fin 7, ∑ s : Fin N, b2n (x d e s)) ≤ 7 := by
    calc (∑ d : Fin 7, ∑ s : Fin N, b2n (x d e s))
        ≤ ∑ _d : Fin 7, 1 := Finset.sum_le_sum fun d _ => hday d e
      _ = 7 := by simp
  have hlb : SCALE * weeklyHours hours x e
      - (1/2) * ((∑ d : Fin 7, ∑ s : Fin N, b2n (x d e s) : ℕ) : ℚ)
      ≤ ((∑ d : Fin 7, ∑ s : Fin N,
          pyRound (hours d s * SCALE) * (b2n (x d e s) : ℤ) : ℤ) : ℚ) := by
    unfold weeklyHours
    push_cast
    rw [Finset.mul_sum, Finset.mul_sum, ← Finset.sum_sub_distrib]
    refine Finset.sum_le_sum fun d _ => ?_
    rw [Finset.mul_sum, Finset.mul_sum, ← Finset.sum_sub_distrib]
    refine Finset.sum_le_sum fun s _ => ?_
    by_cases hx : x d e s
    · simp only [hx, if_true, b2n, mul_one]
      have h1 := le_pyRound (hours d s * SCALE)
      have h2 : SCALE * hours d s = hours d s * SCALE := mul_comm _ _
      push_cast
      linarith
    · simp [hx, b2n]
  have hcntQ : ((∑ d : Fin 7, ∑ s : Fin N, b2n (x d e s) : ℕ) : ℚ) ≤ 7 := by
    exact_mod_cast hcntN
  have hcnt0 : (0 : ℚ) ≤ ((∑ d : Fin 7, ∑ s : Fin N, b2n (x d e s) : ℕ) : ℚ) :=
    Nat.cast_nonneg _
  have hW : SCALE * weeklyHours hours x e ≤ hourCaps e * SCALE + 4 := by linarith
  rw [show SCALE = 1000 from rfl] at hW ⊢
  linarith

section
set_option allowUnsafeReducibility true
attribute [local semireducible] Rat.mul Rat.add Rat.sub Rat.inv

/-- C3 witness: the empty assignment with zero hours and cap 1 satisfies
the hypotheses, and its weekly hours respect the amended bound. -/
theorem weekly_hours_cap_bound_witness :
    perDayAtMostOne xFalse ∧ hourCapConstraint hours0 hcaps1 xFalse ∧
    0 < hcaps1 0 ∧ weeklyHours hours0 xFalse 0 ≤ hcaps1 0 + 4 / SCALE :=
  ⟨by decide, by decide, by decide,
   weekly_hours_cap_bound hours0 hcaps1 xFalse 0 (by decide) (by decide) (by decide)⟩

/-- C3 counterexample: a fully feasible assignment (all built-model
constraints hold) with positive hour cap `1/10000` for employee 0, every
schedule lasting `1/2500` hours (so every scaled hour coefficient and the
scaled cap round to 0 and the scaled constraint is vacuous), where the
exact weekly hours `7/2500` exceed `hourCap + 7·maxHours/SCALE`. -/
theorem weekly_hours_claimed_bound_cex :
    feasible costsC3 hoursC3 caps7 hcapsC3 xC3 ∧
    0 < hcapsC3 0 ∧
    (∀ (d : Fin 7) (s : Fin N), hoursC3 d s = 1/2500) ∧
    weeklyHours hoursC3 xC3 0 > hcapsC3 0 + 7 * (1/2500) / SCALE :=
  ⟨by decide, by decide, by decide, by decide⟩

end

lemma optimalValue_costs0 (prefs : DMatrix) (lam : ℚ) :
    OptimalValue costs0 prefs hours0 lam caps7 hcaps0 0 := by
  constructor
  · exact ⟨xFalse, by decide,
      scaledObjective_eq_zero costs0 prefs lam xFalse (fun _ _ _ => rfl)⟩
  · intro x hx
    rw [scaledObjective_eq_zero costs0 prefs lam x (feasible_costs0_forces hx)]

/-- C8: holding costs, hours and caps (hence the feasible region) fixed,
with non-negative and non-uniform preferences, the minimal value of the
built model's scaled objective is antitone in λ: for `λ1 ≤ λ2` the
optimal value at `λ2` is at most the optimal value at `λ1`. -/
theorem optimal_value_antitone_in_lambda :
    ∀ (costs prefs : DMatrix) (hours : HoursV) (shiftCaps : Fin N → ℤ)
      (hourCaps : Fin N → ℚ) (lam1 lam2 : ℚ) (v1 v2 : ℤ),
      (∀ d e s, 0 ≤ prefs d e s) →
      (∃ d e s d2 e2 s2, prefs d e s ≠ prefs d2 e2 s2) →
      lam1 ≤ lam2 →
      OptimalValue costs prefs hours lam1 shiftCaps hourCaps v1 →
      OptimalValue costs prefs hours lam2 shiftCaps hourCaps v2 →
      v2 ≤ v1 := by
  intro costs prefs hours shiftCaps hourCaps lam1 lam2 v1 v2 hpref _ h12 h1 h2
  obtain ⟨⟨x1, hx1f, hx1v⟩, _⟩ := h1
  obtain ⟨_, hmin2⟩ := h2
  have hmono : scaledObjective costs prefs lam2 x1 ≤ scaledObjective costs prefs lam1 x1 := by
    unfold scaledObjective
    refine Finset.sum_le_sum fun d _ => Finset.sum_le_sum fun e _ =>
      Finset.sum_le_sum fun s _ => ?_
    refine mul_le_mul_of_nonneg_right ?_ (by exact_mod_cast Nat.zero_le (b2n (x1 d e s)))
    unfold scaledCoef
    refine pyRound_mono ?_
    have hSnn : (0:ℚ) ≤ SCALE := by norm_num [SCALE]
    refine mul_le_mul_of_nonneg_right ?_ hSnn
    have hmul := mul_le_mul_of_nonneg_right h12 (hpref d e s)
    linarith
  calc v2 ≤ scaledObjective costs prefs lam2 x1 := hmin2 x1 hx1f
    _ ≤ scaledObjective costs prefs lam1 x1 := hmono
    _ = v1 := hx1v

/-- C8 witness: all-zero costs force the empty assignment, so the optimal
value is 0 for both `λ = 0` and `λ = 1` with the non-uniform, non-negative
preferences `prefsW`; the theorem yields `0 ≤ 0`. -/
theorem optimal_value_antitone_in_lambda_witness :
    (∀ d e s, 0 ≤ prefsW d e s) ∧
    (0 : ℚ) ≤ 1 ∧
    OptimalValue costs0 prefsW hours0 0 caps7 hcaps0 0 ∧
    OptimalValue costs0 prefsW hours0 1 caps7 hcaps0 0 ∧
    (0 : ℤ) ≤ 0 := by
  have hopt0 := optimalValue_costs0 prefsW 0
  have hopt1 := optimalValue_costs0 prefsW 1
  refine ⟨by decide, by decide, hopt0, hopt1, ?_⟩
  exact optimal_value_antitone_in_lambda costs0 prefsW hours0 caps7 hcaps0 0 1 0 0
    (by decide) ⟨0, 0, 0, 0, 0, 1, by decide⟩ (by decide) hopt0 hopt1

end Sched
